import Mathlib

/-!
# Verification of the remote-measurement orchestration engine

Shallow embedding of the measurement orchestration engine of the
`remote-measurement` repository (Go sources under `pkg/measurement`,
`pkg/database`, `pkg/proxy`, `pkg/models`), together with theorems that
settle the frozen claims C1..C10 about it.

The embedding follows `pkg/measurement/measure.go` (the variant with the
`proxy.Provider` abstraction, i.e. the one the claims cite by line):

* `shouldSkipProtocol`, `handleTestResult`, `performProtocolMeasurement`,
  `performMeasurement`, `measureServer` — the Protocol Retry Engine;
* `RunMeasurements` — the client acquisition loop (`runMeasurements` here);
* `processMeasurements` — the worker-pool sizing logic
  (`processMeasurementsWorkerCount` / `startedWorkers` here);
* `pkg/database/server.go` — `GetServersByIDs`, `GetServersByNames`,
  `GetMeasurementsBySession`;
* `pkg/proxy/soax.go` — the constructor default for `MaxWorkers` and
  `GetMaxWorkers`.

External effects (the Prober, JSON serialization, the proxy vendor API)
are parameters of the model (`Env`, `RunEnv`): the engine's control flow is
translated literally, the collaborators are oracles.  The database of
measurements is a list in insertion order (`InsertMeasurement` appends,
`GetMeasurementsBySession` filters), matching the append-only measurement
table.  Go `int64` ids are `Int`; the retry counter only ever takes
non-negative values in this code, so `RetryNumber` is `Nat`.
-/

namespace RemoteMeasurement

/-- `models.Server` (pkg/models): the fields the measurement engine reads.
Geolocation and timestamp fields are omitted — nothing in the embedded
code paths reads them. -/
structure Server where
  id : Int
  ip : String
  port : String
  fullAccessLink : String
  name : String
  tcpErrorMsg : String
  tcpErrorOp : String
  udpErrorMsg : String
  udpErrorOp : String
  deriving Repr, DecidableEq

/-- `models.Client` (pkg/models): the fields the measurement engine reads,
plus `expirationTime` (`ExpirationTime time.Time`, modelled as unix
seconds) which claims C3 is about. -/
structure Client where
  id : Int
  ip : String
  proxyURL : String
  expirationTime : Int
  isp : String
  deriving Repr, DecidableEq

/-- `models.Measurement` (pkg/models).  `FullReport json.RawMessage` is
`Option String`: `none` is the Go zero value (never assigned), `some s`
a marshalled report.  The `Time` column is not modelled (never read). -/
structure Measurement where
  clientID : Int
  serverID : Int
  protocol : String
  sessionID : String
  retryNumber : Nat
  prefixUsed : String
  errorMsg : String
  errorMsgVerbose : String
  errorOp : String
  duration : Int
  fullReport : Option String
  deriving Repr, DecidableEq

/-- `connectivity.TestError` — `report.Test.Error` with `Op`, `Msg`,
`MsgVerbose`. -/
structure TestError where
  op : String
  msg : String
  msgVerbose : String
  deriving Repr, DecidableEq

/-- The part of `connectivity.ConnectivityReport` that
`handleTestResult` reads: `report.Test.Error` and `report.Test.DurationMs`. -/
structure TestReport where
  error : Option TestError
  durationMs : Int
  deriving Repr, DecidableEq

/-- Outcome of one `connectivity.TestConnectivity` call: either the call
itself returned a non-nil `error` (a transport/dial level failure), or it
returned a report. -/
inductive ProbeResult where
  | callError (msg : String)
  | report (r : TestReport)
  deriving Repr, DecidableEq

/-- The external collaborators of the retry engine: the Prober
(`connectivity.TestConnectivity`, as a function of the transport string and
the protocol; the resolver and domain configuration strings are fixed for a
run and folded into the oracle) and `json.Marshal` on reports (total here:
marshalling a `ConnectivityReport` does not fail). -/
structure Env where
  probe : String → String → ProbeResult
  serialize : TestReport → String

/-- `shouldSkipProtocol` (measure.go): skip when the server's stored error
message for the protocol is non-empty.  The operation tag is not consulted. -/
def shouldSkipProtocol (protocol : String) (server : Server) : Bool :=
  if protocol == "tcp" && server.tcpErrorMsg != "" then true
  else if protocol == "udp" && server.udpErrorMsg != "" then true
  else false

/-- `handleTestResult` (measure.go): on a Prober call error, record the raw
error text with operation `"fail"` and return — `FullReport` is left at its
zero value.  Otherwise copy the structured error (or mark `"success"`) and
then marshal the report into `FullReport`. -/
def handleTestResult (env : Env) (res : ProbeResult) (m : Measurement) :
    Measurement :=
  match res with
  | .callError errMsg =>
      { m with errorMsg := errMsg, errorOp := "fail" }
  | .report r =>
      let m1 :=
        match r.error with
        | some te =>
            { m with errorMsg := te.msg, errorMsgVerbose := te.msgVerbose,
                     errorOp := te.op, duration := r.durationMs }
        | none =>
            { m with duration := r.durationMs, errorOp := "success" }
      { m1 with fullReport := some (env.serialize r) }

/-- `database.InsertMeasurement`: append to the measurement table. -/
def insertMeasurement (store : List Measurement) (m : Measurement) :
    List Measurement :=
  store ++ [m]

/-- `database.GetMeasurementsBySession` (server.go): rows of one session id
with one retry number, in insertion order. -/
def getMeasurementsBySession (store : List Measurement) (sessionID : String)
    (retryNumber : Nat) : List Measurement :=
  store.filter (fun m => m.sessionID == sessionID && m.retryNumber == retryNumber)

/-- `performProtocolMeasurement` (measure.go): build the transport string
(proxy URL joined with the access link, or with the override), skip if the
server has a stored error for the protocol, otherwise probe, classify via
`handleTestResult` and persist the measurement row. -/
def performProtocolMeasurement (env : Env) (client : Client) (server : Server)
    (sessionID : String) (retryNumber : Nat) (pre : String)
    (accessLinkOverride : Option String) (protocol : String)
    (store : List Measurement) : List Measurement :=
  let transport :=
    match accessLinkOverride with
    | some link => client.proxyURL ++ "|" ++ link
    | none => client.proxyURL ++ "|" ++ server.fullAccessLink
  if shouldSkipProtocol protocol server then store
  else
    let measurement : Measurement :=
      { clientID := client.id, serverID := server.id, protocol := protocol,
        sessionID := sessionID, retryNumber := retryNumber,
        prefixUsed := pre, errorMsg := "", errorMsgVerbose := "",
        errorOp := "", duration := 0, fullReport := none }
    insertMeasurement store
      (handleTestResult env (env.probe transport protocol) measurement)

/-- `performMeasurement` (measure.go): run
`performProtocolMeasurement` for `"tcp"` then `"udp"`. -/
def performMeasurement (env : Env) (client : Client) (server : Server)
    (sessionID : String) (retryNumber : Nat) (pre : String)
    (accessLinkOverride : Option String) (store : List Measurement) :
    List Measurement :=
  ["tcp", "udp"].foldl
    (fun st protocol =>
      performProtocolMeasurement env client server sessionID retryNumber
        pre accessLinkOverride protocol st)
    store

/-- The per-row failure flag computed in `measureServer`:
`m.ErrorMsg != "" || m.ErrorOp != "success"`. -/
def hasErrorFlag (m : Measurement) : Bool :=
  m.errorMsg != "" || m.errorOp != "success"

/-- The `initialResults` map of `measureServer`: for a protocol key, the
flag written by the last row with that protocol (Go map writes in list
order; `none` when no row has the protocol, i.e. the key is absent). -/
def lookupResult (ms : List Measurement) (p : String) : Option Bool :=
  ((ms.filter (fun m => m.protocol == p)).getLast?).map hasErrorFlag

/-- One prefix iteration of the retry loop in `measureServer`: increment the
shared retry counter, mutate the access link by appending the prefix as a
query parameter, and measure the protocol at the new retry number. -/
def prefixStep (env : Env) (client : Client) (server : Server)
    (sessionID : String) (protocol : String)
    (acc : Nat × List Measurement) (pre : String) :
    Nat × List Measurement :=
  let rc := acc.1 + 1
  let newAccessLink := server.fullAccessLink ++ "?prefix=" ++ pre
  (rc, performProtocolMeasurement env client server sessionID rc pre
        (some newAccessLink) protocol acc.2)

/-- The retry block of `measureServer` for one failed protocol: one bare
retry at the incremented counter, then one retry per configured prefix,
the counter incremented before each. -/
def doRetries (env : Env) (prefixes : List String) (client : Client)
    (server : Server) (sessionID : String) (protocol : String)
    (retryCount : Nat) (store : List Measurement) :
    Nat × List Measurement :=
  let rc1 := retryCount + 1
  let store1 :=
    performProtocolMeasurement env client server sessionID rc1 "" none
      protocol store
  prefixes.foldl (prefixStep env client server sessionID protocol)
    (rc1, store1)

/-- The body of the `for protocol, hasError := range initialResults` loop in
`measureServer`: retries run only for a protocol whose read-back initial
flag is `true`. -/
def retryStep (env : Env) (prefixes : List String) (client : Client)
    (server : Server) (sessionID : String) (initial : List Measurement)
    (acc : Nat × List Measurement) (protocol : String) :
    Nat × List Measurement :=
  match lookupResult initial protocol with
  | some true => doRetries env prefixes client server sessionID protocol acc.1 acc.2
  | _ => acc

/-- `measureServer` (measure.go): initial round for both protocols at retry
number 0, read-back of this session's retry-0 rows from the store,
classification into `initialResults`, then the retry loop over the map with
a single shared `retryCount` starting at 0.

`order` is the iteration order of the Go map `initialResults` (Go map
iteration order is unspecified); `store` is the measurement table as the
pass starts.  The session id is a fresh `uuid.New().String()` in Go — the
theorems state freshness as a hypothesis on `store`. -/
def measureServer (env : Env) (prefixes : List String) (client : Client)
    (server : Server) (sessionID : String) (order : List String)
    (store : List Measurement) : List Measurement :=
  let store0 := performMeasurement env client server sessionID 0 "" none store
  let initial := getMeasurementsBySession store0 sessionID 0
  (order.foldl (retryStep env prefixes client server sessionID initial)
    (0, store0)).2

/-- The `measurement.Settings` struct (measure.go).  `MaxClients` is a Go
`int` used only as the bound of `for i := 0; i < MaxClients; i++`, i.e. as a
non-negative count, hence `Nat`. -/
structure Settings where
  country : String
  isp : String
  clientType : String
  serverID : Int
  maxRetries : Nat
  maxClients : Nat

/-- Outcome of one client slot of the acquisition loop in
`RunMeasurements`: `GetClientForISP` fails, `InsertClients` fails,
`InsertClients` returns an empty slice, or a saved client is obtained.
Each failure makes the loop `continue` with the next slot. -/
inductive LeaseOutcome where
  | leaseFail (msg : String)
  | insertFail (msg : String)
  | insertEmpty
  | ok (c : Client)

/-- External collaborators of `RunMeasurements`: the store's server
resolution calls and the provider, with the composite per-(ISP, slot)
lease/persist outcome as an oracle. -/
structure RunEnv where
  getServerByID : Int → Except String Server
  getWorkingServers : Except String (List Server)
  getISPList : String → String → Except String (List String)
  lease : String → Nat → LeaseOutcome

/-- What `RunMeasurements` did: how many times `GetClientForISP` was called
(one call per (ISP, slot) pair reached) and which saved clients were handed
to `processMeasurements`, in order. -/
structure RunTrace where
  leaseAttempts : Nat
  processed : List Client
  deriving Repr, DecidableEq

/-- One client slot of the acquisition loop: every outcome counts as one
lease attempt; only a fully successful lease+persist adds a processed
client (the `continue` branches of `RunMeasurements`). -/
def slotStep (env : RunEnv) (isp : String) (tr : RunTrace) (i : Nat) :
    RunTrace :=
  match env.lease isp i with
  | .ok c => { leaseAttempts := tr.leaseAttempts + 1,
               processed := tr.processed ++ [c] }
  | _ => { tr with leaseAttempts := tr.leaseAttempts + 1 }

/-- `RunMeasurements` (measure.go): resolve servers (by id when
`ServerID != 0`, else the provider's working servers), fail if none; resolve
the ISP list (the settings' singleton when `ISP != ""`, else the provider's
shuffled list); then for each ISP try up to `MaxClients` client slots,
skipping failed slots.  Lease and persistence failures never abort the run. -/
def runMeasurements (env : RunEnv) (s : Settings) : Except String RunTrace :=
  let serversE : Except String (List Server) :=
    if s.serverID != 0 then
      match env.getServerByID s.serverID with
      | .error e => .error ("failed to get server by ID: " ++ e)
      | .ok sv => .ok [sv]
    else
      match env.getWorkingServers with
      | .error e => .error ("failed to get working servers: " ++ e)
      | .ok servers => .ok servers
  match serversE with
  | .error e => .error e
  | .ok servers =>
    if servers.isEmpty then .error "no working servers found for provider"
    else
      let ispsE : Except String (List String) :=
        if s.isp != "" then .ok [s.isp]
        else
          match env.getISPList s.country s.clientType with
          | .error e => .error ("failed to get ISP list: " ++ e)
          | .ok isps => .ok isps
      match ispsE with
      | .error e => .error e
      | .ok isps =>
        .ok (isps.foldl
          (fun tr isp => (List.range s.maxClients).foldl (slotStep env isp) tr)
          { leaseAttempts := 0, processed := [] })

/-- `database.GetServersByIDs` (server.go): empty request short-circuits to
an empty result; otherwise the rows whose id is in the request are
returned.  A length mismatch against the request only logs a warning
(`"Some requested servers were not found"`) — it is not an error. -/
def getServersByIDs (db : List Server) (ids : List Int) :
    Except String (List Server) :=
  if ids.isEmpty then .ok []
  else
    let servers := db.filter (fun sv => ids.contains sv.id)
    -- `if len(servers) != len(ids)` computes missing ids for a log warning only
    .ok servers

/-- `database.GetServersByNames` (server.go): same shape as
`getServersByIDs`, keyed by the name column; missing names only warn. -/
def getServersByNames (db : List Server) (names : List String) :
    Except String (List Server) :=
  if names.isEmpty then .ok []
  else
    let servers := db.filter (fun sv => names.contains sv.name)
    -- length mismatch against the request is a log warning only
    .ok servers

/-- The worker-count computation of `processMeasurements` (measure.go):
the raw `<provider>.max_workers` config value for proxyrack and soax, the
constant 1 for any other provider, then capped at the number of servers.
`cfg` is `config.GetInt` (0 for an absent key). -/
def processMeasurementsWorkerCount (providerName : String)
    (cfg : String → Int) (numServers : Nat) : Int :=
  let mw : Int :=
    if providerName == "proxyrack" then cfg "proxyrack.max_workers"
    else if providerName == "soax" then cfg "soax.max_workers"
    else 1
  if mw > (numServers : Int) then (numServers : Int) else mw

/-- The raw config lookup inside `processMeasurements`, before the cap. -/
def rawConfiguredWorkers (providerName : String) (cfg : String → Int) : Int :=
  if providerName == "proxyrack" then cfg "proxyrack.max_workers"
  else if providerName == "soax" then cfg "soax.max_workers"
  else 1

/-- Number of worker goroutines actually started by
`for i := 0; i < maxWorkers; i++`: none when the computed count is not
positive. -/
def startedWorkers (providerName : String) (cfg : String → Int)
    (numServers : Nat) : Nat :=
  (processMeasurementsWorkerCount providerName cfg numServers).toNat

/-- The `MaxWorkers` normalization in `newSoaxProvider` /
`newProxyRackProvider` (soax.go, proxyrack.go): a zero config value
defaults to 1.  `GetMaxWorkers` returns this normalized value — this is the
provider's advertised max concurrency. -/
def soaxGetMaxWorkers (rawConfig : Int) : Int :=
  if rawConfig == 0 then 1 else rawConfig

/-!
## Derived closed forms

The remaining definitions are not translations of further source code: they
are closed-form descriptions of what the folds inside `measureServer`
produce, proved equal to the folds below (`performMeasurement_eq`,
`measureServer_eq`) and used to state and prove the claims.
-/

section Engine

variable (env : Env) (prefixes : List String) (client : Client)
variable (server : Server) (sessionID : String)

/-- The row inserted by one non-skipped `performProtocolMeasurement` call. -/
def rowFor (rn : Nat) (pre : String) (accessLinkOverride : Option String)
    (protocol : String) : Measurement :=
  let transport :=
    match accessLinkOverride with
    | some link => client.proxyURL ++ "|" ++ link
    | none => client.proxyURL ++ "|" ++ server.fullAccessLink
  handleTestResult env (env.probe transport protocol)
    { clientID := client.id, serverID := server.id, protocol := protocol,
      sessionID := sessionID, retryNumber := rn, prefixUsed := pre,
      errorMsg := "", errorMsgVerbose := "", errorOp := "", duration := 0,
      fullReport := none }

/-- Rows of the prefix loop for one failed protocol, the shared counter
starting after `n`. -/
def prefixRowsFrom (protocol : String) : List String → Nat → List Measurement
  | [], _ => []
  | q :: qs, n =>
      rowFor env client server sessionID (n + 1) q
        (some (server.fullAccessLink ++ "?prefix=" ++ q)) protocol
        :: prefixRowsFrom protocol qs (n + 1)

/-- Rows of one `doRetries` block: nothing when the protocol is skipped,
else the bare retry followed by the prefix retries. -/
def retryBlock (protocol : String) (n : Nat) : List Measurement :=
  if shouldSkipProtocol protocol server then []
  else
    rowFor env client server sessionID (n + 1) "" none protocol
      :: prefixRowsFrom env client server sessionID protocol prefixes (n + 1)

/-- Rows appended by the retry loop over the `initialResults` iteration
order, the shared counter starting at `n` (the counter advances by
`1 + len(prefixes)` for every failed protocol, skipped or not). -/
def addedRows (initial : List Measurement) :
    List String → Nat → List Measurement
  | [], _ => []
  | q :: rest, n =>
      match lookupResult initial q with
      | some true =>
          retryBlock env prefixes client server sessionID q n
            ++ addedRows initial rest (n + 1 + prefixes.length)
      | _ => addedRows initial rest n

/-- Value of the shared retry counter after the retry loop. -/
def counterAfter (initial : List Measurement) :
    List String → Nat → Nat
  | [], n => n
  | q :: rest, n =>
      match lookupResult initial q with
      | some true => counterAfter initial rest (n + 1 + prefixes.length)
      | _ => counterAfter initial rest n

/-- The rows inserted by the initial round (`performMeasurement` at retry
number 0): a tcp row unless tcp is skipped, then a udp row unless udp is
skipped. -/
def initialRows : List Measurement :=
  (if shouldSkipProtocol "tcp" server then []
   else [rowFor env client server sessionID 0 "" none "tcp"])
  ++ (if shouldSkipProtocol "udp" server then []
      else [rowFor env client server sessionID 0 "" none "udp"])

/-- The retry-0 rows `measureServer` re-reads from the store after the
initial round: `GetMeasurementsBySession(sessionID, 0)` over the table as
left by `performMeasurement`. -/
def initialReadBack (store : List Measurement) : List Measurement :=
  getMeasurementsBySession
    (performMeasurement env client server sessionID 0 "" none store)
    sessionID 0

end Engine

/-!
## Concrete fixtures

Concrete environments and records used by counterexamples and witnesses.
-/

/-- A successful probe report. -/
def okReport : TestReport := { error := none, durationMs := 5 }

/-- A structured probe failure (the Prober executed, the target timed out). -/
def failReport : TestReport :=
  { error := some { op := "timedout", msg := "udp timed out",
                    msgVerbose := "read deadline exceeded" },
    durationMs := 3 }

/-- Prober oracle: every probe succeeds. -/
def envAllOK : Env :=
  { probe := fun _ _ => .report okReport,
    serialize := fun _ => "report-json" }

/-- Prober oracle: udp probes fail with a structured error, tcp succeeds. -/
def envUdpFails : Env :=
  { probe := fun _ protocol =>
      if protocol == "udp" then .report failReport else .report okReport,
    serialize := fun _ => "report-json" }

/-- Prober oracle: every `TestConnectivity` call itself returns an error. -/
def envCallError : Env :=
  { probe := fun _ _ => .callError "dial tcp: i/o timeout",
    serialize := fun _ => "report-json" }

/-- A leased client. -/
def client1 : Client :=
  { id := 7, ip := "1.2.3.4", proxyURL := "socks5://user:pw@proxy:5000",
    expirationTime := 1700000000, isp := "ISP-A" }

/-- A client whose lease expired before the epoch: its expiration timestamp
is in the past for every non-negative reference time. -/
def expiredClient : Client :=
  { id := 8, ip := "1.2.3.5", proxyURL := "socks5://user:pw@proxy:5001",
    expirationTime := -1, isp := "ISP-A" }

/-- A healthy server (no stored errors). -/
def server1 : Server :=
  { id := 42, ip := "9.9.9.9", port := "443",
    fullAccessLink := "ss://key@9.9.9.9:443", name := "group-1",
    tcpErrorMsg := "", tcpErrorOp := "", udpErrorMsg := "", udpErrorOp := "" }

/-- A server whose stored TCP error has operation tag `"connect"`. -/
def serverTcpConnectErr : Server :=
  { id := 43, ip := "9.9.9.10", port := "443",
    fullAccessLink := "ss://key@9.9.9.10:443", name := "group-1",
    tcpErrorMsg := "connection refused", tcpErrorOp := "connect",
    udpErrorMsg := "", udpErrorOp := "" }

/-- A config lookup with every key unset (`viper.GetInt` yields 0). -/
def cfgZero : String → Int := fun _ => 0

/-- A config lookup with every integer key set to 5. -/
def cfgFive : String → Int := fun _ => 5

/-- Run environment: one working server, an empty ISP list, every lease
attempt failing. -/
def runEnvNoISP : RunEnv :=
  { getServerByID := fun _ => .error "server not found",
    getWorkingServers := .ok [server1],
    getISPList := fun _ _ => .ok [],
    lease := fun _ _ => .leaseFail "no available nodes" }

/-- Run environment: no working servers at all. -/
def runEnvNoServers : RunEnv :=
  { getServerByID := fun _ => .error "server not found",
    getWorkingServers := .ok [],
    getISPList := fun _ _ => .ok ["isp1"],
    lease := fun _ _ => .leaseFail "no available nodes" }

/-- Run environment: one working server, two ISPs, exactly one slot leasing
successfully. -/
def runEnvTwoISPs : RunEnv :=
  { getServerByID := fun _ => .error "server not found",
    getWorkingServers := .ok [server1],
    getISPList := fun _ _ => .ok ["isp1", "isp2"],
    lease := fun isp i =>
      if isp == "isp1" && i == 0 then .ok client1
      else .leaseFail "no available nodes" }

/-- Settings asking for the provider's working servers and all ISPs of the
country. -/
def settingsAllISPs : Settings :=
  { country := "ir", isp := "", clientType := "mobile", serverID := 0,
    maxRetries := 3, maxClients := 3 }

/-- A measurement-table database with `server1` as its only server row. -/
def dbSingle : List Server := [server1]

/-!
## Structural lemmas

These connect the literal translations of the Go functions to the closed
forms above.  They are shared by several claim theorems.
-/

section EngineLemmas

variable (env : Env) (prefixes : List String) (client : Client)
variable (server : Server) (sessionID : String)

theorem handleTestResult_preserves (res : ProbeResult) (m : Measurement) :
    (handleTestResult env res m).protocol = m.protocol ∧
    (handleTestResult env res m).sessionID = m.sessionID ∧
    (handleTestResult env res m).retryNumber = m.retryNumber ∧
    (handleTestResult env res m).prefixUsed = m.prefixUsed := by
  cases res with
  | callError e => exact ⟨rfl, rfl, rfl, rfl⟩
  | report r =>
      obtain ⟨er, d⟩ := r
      cases er <;> exact ⟨rfl, rfl, rfl, rfl⟩

@[simp] theorem rowFor_protocol (rn : Nat) (pre : String)
    (ov : Option String) (p : String) :
    (rowFor env client server sessionID rn pre ov p).protocol = p := by
  simpa [rowFor] using
    (handleTestResult_preserves env _
      { clientID := client.id, serverID := server.id, protocol := p,
        sessionID := sessionID, retryNumber := rn, prefixUsed := pre,
        errorMsg := "", errorMsgVerbose := "", errorOp := "", duration := 0,
        fullReport := none }).1

@[simp] theorem rowFor_sessionID (rn : Nat) (pre : String)
    (ov : Option String) (p : String) :
    (rowFor env client server sessionID rn pre ov p).sessionID = sessionID := by
  simpa [rowFor] using
    (handleTestResult_preserves env _
      { clientID := client.id, serverID := server.id, protocol := p,
        sessionID := sessionID, retryNumber := rn, prefixUsed := pre,
        errorMsg := "", errorMsgVerbose := "", errorOp := "", duration := 0,
        fullReport := none }).2.1

@[simp] theorem rowFor_retryNumber (rn : Nat) (pre : String)
    (ov : Option String) (p : String) :
    (rowFor env client server sessionID rn pre ov p).retryNumber = rn := by
  simpa [rowFor] using
    (handleTestResult_preserves env _
      { clientID := client.id, serverID := server.id, protocol := p,
        sessionID := sessionID, retryNumber := rn, prefixUsed := pre,
        errorMsg := "", errorMsgVerbose := "", errorOp := "", duration := 0,
        fullReport := none }).2.2.1

@[simp] theorem rowFor_prefixUsed (rn : Nat) (pre : String)
    (ov : Option String) (p : String) :
    (rowFor env client server sessionID rn pre ov p).prefixUsed = pre := by
  simpa [rowFor] using
    (handleTestResult_preserves env _
      { clientID := client.id, serverID := server.id, protocol := p,
        sessionID := sessionID, retryNumber := rn, prefixUsed := pre,
        errorMsg := "", errorMsgVerbose := "", errorOp := "", duration := 0,
        fullReport := none }).2.2.2

theorem performProtocolMeasurement_eq (rn : Nat) (pre : String)
    (ov : Option String) (p : String) (store : List Measurement) :
    performProtocolMeasurement env client server sessionID rn pre ov p store =
      if shouldSkipProtocol p server then store
      else store ++ [rowFor env client server sessionID rn pre ov p] := by
  cases h : shouldSkipProtocol p server <;>
    simp [performProtocolMeasurement, rowFor, insertMeasurement, h]

theorem performMeasurement_eq (store : List Measurement) :
    performMeasurement env client server sessionID 0 "" none store =
      store ++ initialRows env client server sessionID := by
  simp only [performMeasurement, List.foldl]
  rw [performProtocolMeasurement_eq, performProtocolMeasurement_eq]
  unfold initialRows
  cases h1 : shouldSkipProtocol "tcp" server <;>
    cases h2 : shouldSkipProtocol "udp" server <;> simp [h1, h2]

theorem prefixFold_eq (p : String) :
    ∀ (ps : List String) (n : Nat) (st : List Measurement),
      ps.foldl (prefixStep env client server sessionID p) (n, st) =
        (n + ps.length,
         if shouldSkipProtocol p server then st
         else st ++ prefixRowsFrom env client server sessionID p ps n)
  | [], n, st => by
      cases h : shouldSkipProtocol p server <;> simp [prefixRowsFrom, h]
  | q :: qs, n, st => by
      have step :
          prefixStep env client server sessionID p (n, st) q =
            (n + 1,
             performProtocolMeasurement env client server sessionID (n + 1) q
               (some (server.fullAccessLink ++ "?prefix=" ++ q)) p st) := rfl
      simp only [List.foldl, step, performProtocolMeasurement_eq]
      cases h : shouldSkipProtocol p server with
      | true =>
          rw [prefixFold_eq p qs (n + 1)]
          simp only [h, if_true, List.length_cons, Prod.mk.injEq, if_pos]
          refine ⟨by omega, trivial⟩
      | false =>
          rw [prefixFold_eq p qs (n + 1)]
          simp only [h, List.length_cons, Prod.mk.injEq, if_false,
            Bool.false_eq_true, if_neg, prefixRowsFrom]
          refine ⟨by omega, ?_⟩
          simp

theorem doRetries_eq (p : String) (n : Nat) (st : List Measurement) :
    doRetries env prefixes client server sessionID p n st =
      (n + 1 + prefixes.length,
       st ++ retryBlock env prefixes client server sessionID p n) := by
  show prefixes.foldl (prefixStep env client server sessionID p)
      (n + 1,
        performProtocolMeasurement env client server sessionID (n + 1) "" none
          p st) = _
  rw [performProtocolMeasurement_eq, prefixFold_eq]
  unfold retryBlock
  cases h : shouldSkipProtocol p server <;> simp [h]

theorem retryFold_eq (initial : List Measurement) :
    ∀ (order : List String) (n : Nat) (st : List Measurement),
      order.foldl (retryStep env prefixes client server sessionID initial)
          (n, st) =
        (counterAfter prefixes initial order n,
         st ++ addedRows env prefixes client server sessionID initial order n)
  | [], n, st => by simp [counterAfter, addedRows]
  | q :: rest, n, st => by
      simp only [List.foldl, retryStep, counterAfter, addedRows]
      cases hl : lookupResult initial q with
      | none => rw [retryFold_eq initial rest n st]
      | some b =>
          cases b with
          | false => rw [retryFold_eq initial rest n st]
          | true =>
              rw [doRetries_eq, retryFold_eq initial rest (n + 1 + prefixes.length)]
              simp

theorem measureServer_eq (order : List String) (store : List Measurement) :
    measureServer env prefixes client server sessionID order store =
      store ++ initialRows env client server sessionID
        ++ addedRows env prefixes client server sessionID
             (initialReadBack env client server sessionID store) order 0 := by
  show (order.foldl
      (retryStep env prefixes client server sessionID
        (getMeasurementsBySession
          (performMeasurement env client server sessionID 0 "" none store)
          sessionID 0))
      (0, performMeasurement env client server sessionID 0 "" none store)).2 = _
  rw [retryFold_eq]
  rw [show initialReadBack env client server sessionID store =
        getMeasurementsBySession
          (performMeasurement env client server sessionID 0 "" none store)
          sessionID 0 from rfl]
  rw [performMeasurement_eq]

theorem prefixRowsFrom_map_retryNumber (p : String) :
    ∀ (ps : List String) (n : Nat),
      (prefixRowsFrom env client server sessionID p ps n).map
          (fun m => m.retryNumber) = List.range' (n + 1) ps.length
  | [], n => by simp [prefixRowsFrom]
  | q :: qs, n => by
      simp [prefixRowsFrom, List.range',
        prefixRowsFrom_map_retryNumber p qs (n + 1)]

theorem prefixRowsFrom_map_protocol (p : String) :
    ∀ (ps : List String) (n : Nat),
      (prefixRowsFrom env client server sessionID p ps n).map
          (fun m => m.protocol) = List.replicate ps.length p
  | [], n => by simp [prefixRowsFrom]
  | q :: qs, n => by
      simp [prefixRowsFrom, List.replicate,
        prefixRowsFrom_map_protocol p qs (n + 1)]

theorem prefixRowsFrom_map_prefixUsed (p : String) :
    ∀ (ps : List String) (n : Nat),
      (prefixRowsFrom env client server sessionID p ps n).map
          (fun m => m.prefixUsed) = ps
  | [], n => by simp [prefixRowsFrom]
  | q :: qs, n => by
      simp [prefixRowsFrom, prefixRowsFrom_map_prefixUsed p qs (n + 1)]

theorem prefixRowsFrom_map_sessionID (p : String) :
    ∀ (ps : List String) (n : Nat),
      (prefixRowsFrom env client server sessionID p ps n).map
          (fun m => m.sessionID) = List.replicate ps.length sessionID
  | [], n => by simp [prefixRowsFrom]
  | q :: qs, n => by
      simp [prefixRowsFrom, List.replicate,
        prefixRowsFrom_map_sessionID p qs (n + 1)]

theorem mem_retryBlock (p : String) (n : Nat) (m : Measurement)
    (hm : m ∈ retryBlock env prefixes client server sessionID p n) :
    m.protocol = p ∧ m.sessionID = sessionID ∧
      n + 1 ≤ m.retryNumber ∧ m.retryNumber ≤ n + 1 + prefixes.length := by
  unfold retryBlock at hm
  by_cases h : shouldSkipProtocol p server
  · simp [h] at hm
  · simp only [h, if_neg, Bool.false_eq_true, not_false_eq_true,
      List.mem_cons] at hm
    rcases hm with rfl | hm
    · refine ⟨by simp, by simp, by simp, by simp⟩
    · have hproto := List.mem_map_of_mem (fun m => m.protocol) hm
      rw [prefixRowsFrom_map_protocol] at hproto
      have hsid := List.mem_map_of_mem (fun m => m.sessionID) hm
      rw [prefixRowsFrom_map_sessionID] at hsid
      have hrn := List.mem_map_of_mem (fun m => m.retryNumber) hm
      rw [prefixRowsFrom_map_retryNumber] at hrn
      have hrn' : n + 1 + 1 ≤ m.retryNumber ∧
          m.retryNumber < n + 1 + 1 + prefixes.length := by
        have := List.mem_range'_1.mp hrn
        simpa using this
      exact ⟨List.eq_of_mem_replicate hproto,
        List.eq_of_mem_replicate hsid, by omega, by omega⟩

theorem mem_addedRows (initial : List Measurement) :
    ∀ (order : List String) (n : Nat) (m : Measurement),
      m ∈ addedRows env prefixes client server sessionID initial order n →
        m.sessionID = sessionID ∧ n < m.retryNumber ∧
          lookupResult initial m.protocol = some true ∧ m.protocol ∈ order
  | [], n, m => by simp [addedRows]
  | q :: rest, n, m => by
      simp only [addedRows]
      cases hl : lookupResult initial q with
      | none =>
          intro hm
          have ih := mem_addedRows initial rest n m hm
          exact ⟨ih.1, ih.2.1, ih.2.2.1, List.mem_cons_of_mem _ ih.2.2.2⟩
      | some b =>
          cases b with
          | false =>
              intro hm
              have ih := mem_addedRows initial rest n m hm
              exact ⟨ih.1, ih.2.1, ih.2.2.1, List.mem_cons_of_mem _ ih.2.2.2⟩
          | true =>
              intro hm
              rcases List.mem_append.mp hm with hb | hr
              · obtain ⟨hp, hs, h1, _⟩ :=
                  mem_retryBlock env prefixes client server sessionID q n m hb
                exact ⟨hs, by omega, by rw [hp]; exact hl,
                  by rw [hp]; exact List.mem_cons_self q rest⟩
              · have ih :=
                  mem_addedRows initial rest (n + 1 + prefixes.length) m hr
                exact ⟨ih.1, by omega, ih.2.2.1,
                  List.mem_cons_of_mem _ ih.2.2.2⟩

theorem retryBlock_pairwise (p : String) (n : Nat) :
    (retryBlock env prefixes client server sessionID p n).Pairwise
      (fun a b => a.retryNumber < b.retryNumber) := by
  have hmap :
      ((retryBlock env prefixes client server sessionID p n).map
        (fun m => m.retryNumber)).Pairwise (· < ·) := by
    unfold retryBlock
    by_cases h : shouldSkipProtocol p server
    · simp [h]
    · simp only [h, if_neg, Bool.false_eq_true, not_false_eq_true,
        List.map_cons, rowFor_retryNumber, prefixRowsFrom_map_retryNumber]
      have : (n + 1) :: List.range' (n + 1 + 1) prefixes.length =
          List.range' (n + 1) (prefixes.length + 1) := by
        simp [List.range']
      rw [this]
      exact List.pairwise_lt_range' _ _
  exact (List.pairwise_map.mp hmap)

theorem addedRows_pairwise (initial : List Measurement) :
    ∀ (order : List String) (n : Nat),
      (addedRows env prefixes client server sessionID initial order n).Pairwise
        (fun a b => a.retryNumber < b.retryNumber)
  | [], n => by simp [addedRows]
  | q :: rest, n => by
      simp only [addedRows]
      cases hl : lookupResult initial q with
      | none => exact addedRows_pairwise initial rest n
      | some b =>
          cases b with
          | false => exact addedRows_pairwise initial rest n
          | true =>
              rw [List.pairwise_append]
              refine ⟨retryBlock_pairwise env prefixes client server sessionID
                q n, addedRows_pairwise initial rest (n + 1 + prefixes.length),
                ?_⟩
              intro a ha b hb
              have hA :=
                mem_retryBlock env prefixes client server sessionID q n a ha
              have hB := mem_addedRows env prefixes client server sessionID
                initial rest (n + 1 + prefixes.length) b hb
              omega

theorem mem_prefixRowsFrom (p : String) (ps : List String) (n : Nat)
    (m : Measurement)
    (hm : m ∈ prefixRowsFrom env client server sessionID p ps n) :
    m.protocol = p ∧ m.sessionID = sessionID ∧ m.prefixUsed ∈ ps := by
  have hproto := List.mem_map_of_mem (fun m => m.protocol) hm
  rw [prefixRowsFrom_map_protocol] at hproto
  have hsid := List.mem_map_of_mem (fun m => m.sessionID) hm
  rw [prefixRowsFrom_map_sessionID] at hsid
  have hpre := List.mem_map_of_mem (fun m => m.prefixUsed) hm
  rw [prefixRowsFrom_map_prefixUsed] at hpre
  exact ⟨List.eq_of_mem_replicate hproto, List.eq_of_mem_replicate hsid, hpre⟩

theorem prefixRowsFrom_length (p : String) (ps : List String) (n : Nat) :
    (prefixRowsFrom env client server sessionID p ps n).length = ps.length := by
  have := congrArg List.length
    (prefixRowsFrom_map_prefixUsed env client server sessionID p ps n)
  simpa using this

theorem retryBlock_countP_zero_of_ne (f : Measurement → Bool) (p q : String)
    (n : Nat) (hq : q ≠ p) (hf : ∀ m, m.protocol ≠ p → f m = false) :
    (retryBlock env prefixes client server sessionID q n).countP f = 0 := by
  rw [List.countP_eq_zero]
  intro m hm
  have h := mem_retryBlock env prefixes client server sessionID q n m hm
  simp [hf m (by rw [h.1]; exact hq)]

theorem addedRows_countP_zero (initial : List Measurement)
    (f : Measurement → Bool) (p : String)
    (hf : ∀ m, m.protocol ≠ p → f m = false) (order : List String) (n : Nat)
    (hp : p ∉ order) :
    (addedRows env prefixes client server sessionID initial order n).countP f
      = 0 := by
  rw [List.countP_eq_zero]
  intro m hm
  have h := mem_addedRows env prefixes client server sessionID initial order
    n m hm
  have hne : m.protocol ≠ p := fun heq => hp (heq ▸ h.2.2.2)
  simp [hf m hne]

theorem addedRows_countP (initial : List Measurement)
    (f : Measurement → Bool) (p : String) (k : Nat)
    (hf : ∀ m, m.protocol ≠ p → f m = false)
    (hblock : ∀ n,
      (retryBlock env prefixes client server sessionID p n).countP f = k) :
    ∀ (order : List String) (n : Nat), order.Nodup → p ∈ order →
      lookupResult initial p = some true →
      (addedRows env prefixes client server sessionID initial order n).countP f
        = k
  | [], n => by simp
  | q :: rest, n => by
      intro hnd hp hl
      obtain ⟨hqrest, hndrest⟩ := List.nodup_cons.mp hnd
      simp only [addedRows]
      by_cases hqp : q = p
      · subst hqp
        rw [hl, List.countP_append, hblock n,
          addedRows_countP_zero env prefixes client server sessionID initial
            f q hf rest _ hqrest]
        omega
      · have hprest : p ∈ rest := by
          rcases List.mem_cons.mp hp with h | h
          · exact absurd h.symm hqp
          · exact h
        cases hlq : lookupResult initial q with
        | none =>
            exact addedRows_countP initial f p k hf hblock rest n hndrest
              hprest hl
        | some b =>
            cases b with
            | false =>
                exact addedRows_countP initial f p k hf hblock rest n hndrest
                  hprest hl
            | true =>
                rw [List.countP_append,
                  retryBlock_countP_zero_of_ne env prefixes client server
                    sessionID f p q n hqp hf,
                  addedRows_countP initial f p k hf hblock rest _ hndrest
                    hprest hl]
                omega

theorem mem_initialRows (m : Measurement)
    (hm : m ∈ initialRows env client server sessionID) :
    (m = rowFor env client server sessionID 0 "" none "tcp" ∧
      shouldSkipProtocol "tcp" server = false) ∨
    (m = rowFor env client server sessionID 0 "" none "udp" ∧
      shouldSkipProtocol "udp" server = false) := by
  unfold initialRows at hm
  by_cases h1 : shouldSkipProtocol "tcp" server <;>
    by_cases h2 : shouldSkipProtocol "udp" server <;>
    simp [h1, h2] at hm
  · exact Or.inr ⟨hm, by simpa using h2⟩
  · exact Or.inl ⟨hm, by simpa using h1⟩
  · rcases hm with hm | hm
    · exact Or.inl ⟨hm, by simpa using h1⟩
    · exact Or.inr ⟨hm, by simpa using h2⟩

theorem initialRows_fields (m : Measurement)
    (hm : m ∈ initialRows env client server sessionID) :
    m.retryNumber = 0 ∧ m.sessionID = sessionID ∧ m.prefixUsed = "" := by
  rcases mem_initialRows env client server sessionID m hm with ⟨rfl, _⟩ | ⟨rfl, _⟩ <;>
    simp

theorem initialReadBack_eq (store : List Measurement)
    (hfresh : ∀ m ∈ store, m.sessionID ≠ sessionID) :
    initialReadBack env client server sessionID store =
      initialRows env client server sessionID := by
  unfold initialReadBack
  rw [performMeasurement_eq]
  unfold getMeasurementsBySession
  rw [List.filter_append]
  have h1 : store.filter
      (fun m => m.sessionID == sessionID && m.retryNumber == 0) = [] := by
    rw [List.filter_eq_nil_iff]
    intro m hm
    simp only [Bool.and_eq_true, beq_iff_eq, not_and]
    intro hs
    exact absurd hs (hfresh m hm)
  have h2 : (initialRows env client server sessionID).filter
      (fun m => m.sessionID == sessionID && m.retryNumber == 0) =
        initialRows env client server sessionID := by
    rw [List.filter_eq_self]
    intro m hm
    obtain ⟨hr, hs, _⟩ := initialRows_fields env client server sessionID m hm
    simp [hr, hs]
  rw [h1, h2, List.nil_append]

theorem mem_of_getLast?_eq_some {α : Type} {l : List α} {a : α}
    (h : l.getLast? = some a) : a ∈ l := by
  cases l with
  | nil => simp at h
  | cons x xs =>
      have hne : x :: xs ≠ [] := by simp
      rw [List.getLast?_eq_getLast_of_ne_nil hne] at h
      have heq : (x :: xs).getLast hne = a := by injection h
      exact heq ▸ List.getLast_mem hne

theorem readback_not_skipped (store : List Measurement) (p : String)
    (b : Bool) (hfresh : ∀ m ∈ store, m.sessionID ≠ sessionID)
    (hl : lookupResult (initialReadBack env client server sessionID store) p
      = some b) :
    shouldSkipProtocol p server = false := by
  rw [initialReadBack_eq env client server sessionID store hfresh] at hl
  unfold lookupResult at hl
  obtain ⟨a, ha, _⟩ := Option.map_eq_some'.mp hl
  have hamem : a ∈ (initialRows env client server sessionID).filter
      (fun m => m.protocol == p) := mem_of_getLast?_eq_some ha
  have haP : a.protocol = p := by
    have := List.of_mem_filter hamem
    simpa using this
  have hain : a ∈ initialRows env client server sessionID :=
    List.mem_of_mem_filter hamem
  rcases mem_initialRows env client server sessionID a hain with
    ⟨rfl, hs⟩ | ⟨rfl, hs⟩ <;> simp at haP <;> rw [← haP] <;> exact hs

end EngineLemmas

/-!
## Acquisition-loop lemmas
-/

theorem slotFold_leaseAttempts (env : RunEnv) (isp : String) :
    ∀ (n : Nat) (tr : RunTrace),
      ((List.range n).foldl (slotStep env isp) tr).leaseAttempts =
        tr.leaseAttempts + n
  | 0, tr => rfl
  | n + 1, tr => by
      rw [List.range_succ, List.foldl_append]
      have h : ∀ tr' : RunTrace,
          ([n].foldl (slotStep env isp) tr').leaseAttempts =
            tr'.leaseAttempts + 1 := by
        intro tr'
        simp only [List.foldl, slotStep]
        cases env.lease isp n <;> rfl
      rw [h, slotFold_leaseAttempts env isp n tr]
      omega

theorem ispFold_leaseAttempts (env : RunEnv) (mc : Nat) :
    ∀ (isps : List String) (tr : RunTrace),
      (isps.foldl
        (fun tr isp => (List.range mc).foldl (slotStep env isp) tr)
        tr).leaseAttempts = tr.leaseAttempts + isps.length * mc
  | [], tr => by simp
  | isp :: rest, tr => by
      simp only [List.foldl]
      rw [ispFold_leaseAttempts env mc rest, slotFold_leaseAttempts env isp mc]
      simp only [List.length_cons]
      ring

/-!
## Claims
-/

/-- Claim C1, counterexample.  The claim states that prefix-mutated retries
are issued for TCP only and that no Measurement row with protocol udp and
non-empty PrefixUsed is ever written.  In the code the prefix loop runs for
every failed protocol: with a healthy server, a udp-only probe failure and
one configured prefix `"zz"`, the pass writes a udp row with
`PrefixUsed = "zz"`. -/
theorem C1_counterexample :
    ∃ m ∈ measureServer envUdpFails ["zz"] client1 server1 "sess-1"
        ["tcp", "udp"] [],
      m.protocol = "udp" ∧ m.prefixUsed = "zz" := by decide

/-- Claim C1, amended.  In every (Client, Server) pass, every protocol whose
retry-0 read-back is classified failed — udp included — receives exactly one
bare retry (empty prefix, retry number ≥ 1) and exactly `len(prefixes)`
prefix-mutated retries; the session id is fresh and the configured prefixes
are non-empty strings. -/
theorem C1_amended (env : Env) (prefixes : List String) (client : Client)
    (server : Server) (sessionID : String) (order : List String)
    (store : List Measurement) (p : String)
    (hfresh : ∀ m ∈ store, m.sessionID ≠ sessionID)
    (hnodup : order.Nodup) (hmem : p ∈ order)
    (hfail : lookupResult (initialReadBack env client server sessionID store)
      p = some true)
    (hpre : "" ∉ prefixes) :
    ((measureServer env prefixes client server sessionID order store).countP
      (fun m => m.sessionID == sessionID && m.protocol == p &&
        m.prefixUsed == "" && decide (1 ≤ m.retryNumber))) = 1 ∧
    ((measureServer env prefixes client server sessionID order store).countP
      (fun m => m.sessionID == sessionID && m.protocol == p &&
        m.prefixUsed != "")) = prefixes.length := by
  have hskip : shouldSkipProtocol p server = false :=
    readback_not_skipped env client server sessionID store p true hfresh hfail
  rw [measureServer_eq]
  constructor
  · rw [List.countP_append, List.countP_append]
    have hstore : store.countP
        (fun m => m.sessionID == sessionID && m.protocol == p &&
          m.prefixUsed == "" && decide (1 ≤ m.retryNumber)) = 0 := by
      rw [List.countP_eq_zero]
      intro m hm
      simp [hfresh m hm]
    have hinit : (initialRows env client server sessionID).countP
        (fun m => m.sessionID == sessionID && m.protocol == p &&
          m.prefixUsed == "" && decide (1 ≤ m.retryNumber)) = 0 := by
      rw [List.countP_eq_zero]
      intro m hm
      have h0 := (initialRows_fields env client server sessionID m hm).1
      simp [h0]
    have hadd : (addedRows env prefixes client server sessionID
        (initialReadBack env client server sessionID store) order 0).countP
        (fun m => m.sessionID == sessionID && m.protocol == p &&
          m.prefixUsed == "" && decide (1 ≤ m.retryNumber)) = 1 := by
      refine addedRows_countP env prefixes client server sessionID _ _ p 1
        ?_ ?_ order 0 hnodup hmem hfail
      · intro m hne
        simp [hne]
      · intro n
        unfold retryBlock
        simp only [hskip, Bool.false_eq_true, if_false]
        rw [List.countP_cons]
        have hrows : (prefixRowsFrom env client server sessionID p prefixes
            (n + 1)).countP
            (fun m => m.sessionID == sessionID && m.protocol == p &&
              m.prefixUsed == "" && decide (1 ≤ m.retryNumber)) = 0 := by
          rw [List.countP_eq_zero]
          intro m hm
          have h := mem_prefixRowsFrom env client server sessionID p prefixes
            (n + 1) m hm
          have : m.prefixUsed ≠ "" := fun he => hpre (he ▸ h.2.2)
          simp [this]
        rw [hrows]
        simp
    rw [hstore, hinit, hadd]
  · rw [List.countP_append, List.countP_append]
    have hstore : store.countP
        (fun m => m.sessionID == sessionID && m.protocol == p &&
          m.prefixUsed != "") = 0 := by
      rw [List.countP_eq_zero]
      intro m hm
      simp [hfresh m hm]
    have hinit : (initialRows env client server sessionID).countP
        (fun m => m.sessionID == sessionID && m.protocol == p &&
          m.prefixUsed != "") = 0 := by
      rw [List.countP_eq_zero]
      intro m hm
      have h0 := (initialRows_fields env client server sessionID m hm).2.2
      simp [h0]
    have hadd : (addedRows env prefixes client server sessionID
        (initialReadBack env client server sessionID store) order 0).countP
        (fun m => m.sessionID == sessionID && m.protocol == p &&
          m.prefixUsed != "") = prefixes.length := by
      refine addedRows_countP env prefixes client server sessionID _ _ p
        prefixes.length ?_ ?_ order 0 hnodup hmem hfail
      · intro m hne
        simp [hne]
      · intro n
        unfold retryBlock
        simp only [hskip, Bool.false_eq_true, if_false]
        rw [List.countP_cons]
        have hrows : (prefixRowsFrom env client server sessionID p prefixes
            (n + 1)).countP
            (fun m => m.sessionID == sessionID && m.protocol == p &&
              m.prefixUsed != "") =
              (prefixRowsFrom env client server sessionID p prefixes
                (n + 1)).length := by
          rw [List.countP_eq_length]
          intro m hm
          have h := mem_prefixRowsFrom env client server sessionID p prefixes
            (n + 1) m hm
          have hne : m.prefixUsed ≠ "" := fun he => hpre (he ▸ h.2.2)
          simp [h.1, h.2.1, hne]
        rw [hrows, prefixRowsFrom_length]
        simp
    rw [hstore, hinit, hadd]
    omega

/-- Claim C1, witness for the amended theorem at a concrete pass: udp fails
at retry 0, prefixes `["zz"]`, so udp gets exactly one bare retry and
exactly one prefix retry. -/
theorem C1_amended_witness :
    (∀ m ∈ ([] : List Measurement), m.sessionID ≠ "sess-1") ∧
    (["tcp", "udp"] : List String).Nodup ∧ "udp" ∈ ["tcp", "udp"] ∧
    lookupResult (initialReadBack envUdpFails client1 server1 "sess-1" [])
      "udp" = some true ∧
    "" ∉ ["zz"] ∧
    ((measureServer envUdpFails ["zz"] client1 server1 "sess-1"
        ["tcp", "udp"] []).countP
      (fun m => m.sessionID == "sess-1" && m.protocol == "udp" &&
        m.prefixUsed == "" && decide (1 ≤ m.retryNumber))) = 1 ∧
    ((measureServer envUdpFails ["zz"] client1 server1 "sess-1"
        ["tcp", "udp"] []).countP
      (fun m => m.sessionID == "sess-1" && m.protocol == "udp" &&
        m.prefixUsed != "")) = 1 := by
  refine ⟨by simp, by decide, by decide, by decide, by decide, ?_, ?_⟩
  · exact (C1_amended envUdpFails ["zz"] client1 server1 "sess-1"
      ["tcp", "udp"] [] "udp" (by simp) (by decide) (by decide) (by decide)
      (by decide)).1
  · exact (C1_amended envUdpFails ["zz"] client1 server1 "sess-1"
      ["tcp", "udp"] [] "udp" (by simp) (by decide) (by decide) (by decide)
      (by decide)).2

/-- Claim C2, confirmed.  Within one (Client, Server) pass of
`measureServer`: the table extends as `store ++ initial-round rows ++ retry
rows`, so every retry-0 row of the session is persisted (and the re-read
`initialReadBack` is what classifies protocols) before any retry row; every
retry row has retry number ≥ 1 and comes from a protocol whose re-read
retry-0 classification is failed; the retry numbers of the retry rows are
strictly increasing in insertion order (single shared counter), hence
unique across both protocols; a protocol classified as succeeded at retry 0
produces no retry row. -/
theorem C2_retry_discipline (env : Env) (prefixes : List String)
    (client : Client) (server : Server) (sessionID : String)
    (order : List String) (store : List Measurement) :
    ∃ rows,
      measureServer env prefixes client server sessionID order store =
        store ++ initialRows env client server sessionID ++ rows ∧
      (∀ m ∈ initialRows env client server sessionID,
        m.retryNumber = 0 ∧ m.sessionID = sessionID) ∧
      (∀ m ∈ rows, 1 ≤ m.retryNumber ∧ m.sessionID = sessionID ∧
        lookupResult (initialReadBack env client server sessionID store)
          m.protocol = some true) ∧
      rows.Pairwise (fun a b => a.retryNumber < b.retryNumber) ∧
      (∀ p, lookupResult (initialReadBack env client server sessionID store)
          p = some false → ∀ m ∈ rows, m.protocol ≠ p) := by
  refine ⟨addedRows env prefixes client server sessionID
    (initialReadBack env client server sessionID store) order 0,
    measureServer_eq env prefixes client server sessionID order store,
    ?_, ?_, ?_, ?_⟩
  · intro m hm
    have h := initialRows_fields env client server sessionID m hm
    exact ⟨h.1, h.2.1⟩
  · intro m hm
    have h := mem_addedRows env prefixes client server sessionID _ order 0 m hm
    exact ⟨h.2.1, h.1, h.2.2.1⟩
  · exact addedRows_pairwise env prefixes client server sessionID _ order 0
  · intro p hp m hm hproto
    have h := mem_addedRows env prefixes client server sessionID _ order 0 m hm
    rw [hproto] at h
    rw [hp] at h
    exact Bool.false_ne_true (Option.some.inj h.2.2.1)

/-- Claim C3, counterexample.  The claim states that a job for a Client
whose expiration timestamp is already in the past aborts with an Expired
error and writes zero Measurement rows.  `measureServer` never consults
`ExpirationTime`: for `expiredClient` (expiration before the epoch, i.e. in
the past for every non-negative reference time) the pass still writes both
retry-0 rows and returns no error. -/
theorem C3_counterexample :
    expiredClient.expirationTime < 0 ∧
    (measureServer envAllOK [] expiredClient server1 "sess-3" ["tcp", "udp"]
      []).length = 2 := by decide

/-- Claim C3, amended.  The Protocol Retry Engine performs no expiration
check at all: the rows `measureServer` writes are independent of the
Client's expiration timestamp, so a job for an expired Client proceeds
exactly like any other (probes attempted, Measurement rows written, no
Expired error). -/
theorem C3_amended (env : Env) (prefixes : List String) (client : Client)
    (t : Int) (server : Server) (sessionID : String) (order : List String)
    (store : List Measurement) :
    measureServer env prefixes { client with expirationTime := t } server
        sessionID order store =
      measureServer env prefixes client server sessionID order store := rfl

/-- Claim C4, confirmed.  For a Request that resolves to a non-empty
working-server set and a non-empty ISP list, `RunMeasurements` calls
`GetClientForISP` exactly `len(isps) * MaxClients` times — one per
(ISP, slot) pair — no matter how the lease/persist oracle answers, because
every failure only skips that slot. -/
theorem C4_lease_attempts (env : RunEnv) (s : Settings)
    (servers : List Server) (isps : List String)
    (hid : s.serverID = 0) (hsv : env.getWorkingServers = .ok servers)
    (hne : servers ≠ []) (hisp : s.isp = "")
    (hlist : env.getISPList s.country s.clientType = .ok isps)
    (hisps : isps ≠ []) :
    ∃ tr, runMeasurements env s = .ok tr ∧
      tr.leaseAttempts = isps.length * s.maxClients := by
  unfold runMeasurements
  rw [hid]
  simp only [bne_self_eq_false, Bool.false_eq_true, if_false, hsv]
  rw [if_neg (by simpa using hne)]
  rw [hisp]
  simp only [bne_self_eq_false, Bool.false_eq_true, if_false, hlist]
  refine ⟨_, rfl, ?_⟩
  rw [ispFold_leaseAttempts]
  ring

/-- Claim C4, witness: two ISPs, `MaxClients = 3`, all but one slot failing
to lease — exactly 6 lease attempts. -/
theorem C4_lease_attempts_witness :
    settingsAllISPs.serverID = 0 ∧
    runEnvTwoISPs.getWorkingServers = .ok [server1] ∧
    ([server1] : List Server) ≠ [] ∧ settingsAllISPs.isp = "" ∧
    runEnvTwoISPs.getISPList settingsAllISPs.country
      settingsAllISPs.clientType = .ok ["isp1", "isp2"] ∧
    (["isp1", "isp2"] : List String) ≠ [] ∧
    ∃ tr, runMeasurements runEnvTwoISPs settingsAllISPs = .ok tr ∧
      tr.leaseAttempts = (["isp1", "isp2"] : List String).length *
        settingsAllISPs.maxClients := by
  refine ⟨rfl, rfl, by decide, rfl, rfl, by decide, ?_⟩
  exact C4_lease_attempts runEnvTwoISPs settingsAllISPs [server1]
    ["isp1", "isp2"] rfl rfl (by decide) rfl rfl (by decide)

/-- Claim C5, counterexample.  The claim states the run returns an error
whenever the resolved ISP list is empty.  With one working server and a
provider ISP list that decodes to an empty slice, `RunMeasurements` runs
the acquisition loop zero times and returns nil (success), not an error. -/
theorem C5_counterexample :
    runMeasurements runEnvNoISP settingsAllISPs =
      .ok { leaseAttempts := 0, processed := [] } := rfl

/-- Claim C5, amended.  An empty resolved working-server set is fatal (the
run returns an error), and lease failures are never fatal: whenever server
resolution succeeds with a non-empty set and the ISP list is obtained — the
empty ISP list included — the run returns nil regardless of the lease
oracle.  An empty ISP list is not an error: the run just does nothing. -/
theorem C5_amended :
    (∀ (env : RunEnv) (s : Settings), s.serverID = 0 →
      env.getWorkingServers = .ok [] →
      ∃ e, runMeasurements env s = .error e) ∧
    (∀ (env : RunEnv) (s : Settings) (servers : List Server)
      (isps : List String), s.serverID = 0 →
      env.getWorkingServers = .ok servers → servers ≠ [] → s.isp = "" →
      env.getISPList s.country s.clientType = .ok isps →
      ∃ tr, runMeasurements env s = .ok tr) := by
  constructor
  · intro env s hid hsv
    unfold runMeasurements
    rw [hid]
    simp only [bne_self_eq_false, Bool.false_eq_true, if_false, hsv]
    exact ⟨_, rfl⟩
  · intro env s servers isps hid hsv hne hisp hlist
    unfold runMeasurements
    rw [hid]
    simp only [bne_self_eq_false, Bool.false_eq_true, if_false, hsv]
    rw [if_neg (by simpa using hne)]
    rw [hisp]
    simp only [bne_self_eq_false, Bool.false_eq_true, if_false, hlist]
    exact ⟨_, rfl⟩

/-- Claim C5, witness for the amended theorem: an empty server set makes
the concrete run error, and a concrete run with a non-empty server set and
an empty ISP list (all leases failing) returns success. -/
theorem C5_amended_witness :
    (settingsAllISPs.serverID = 0 ∧
      runEnvNoServers.getWorkingServers = .ok [] ∧
      ∃ e, runMeasurements runEnvNoServers settingsAllISPs = .error e) ∧
    (runEnvNoISP.getWorkingServers = .ok [server1] ∧
      ([server1] : List Server) ≠ [] ∧ settingsAllISPs.isp = "" ∧
      runEnvNoISP.getISPList settingsAllISPs.country
        settingsAllISPs.clientType = .ok [] ∧
      ∃ tr, runMeasurements runEnvNoISP settingsAllISPs = .ok tr) := by
  constructor
  · exact ⟨rfl, rfl, C5_amended.1 runEnvNoServers settingsAllISPs rfl rfl⟩
  · exact ⟨rfl, by decide, rfl, rfl,
      C5_amended.2 runEnvNoISP settingsAllISPs [server1] [] rfl rfl
        (by decide) rfl rfl⟩

/-- Claim C6, counterexample.  The claim states that explicit-server
resolution fails with NotFound when any requested identifier resolves to
zero rows and never returns a partial subset as success.  With a database
holding only the server with id 42, requesting ids `[42, 43]` succeeds and
returns just that one server: id 43 resolves to zero rows, only a warning
is logged. -/
theorem C6_counterexample :
    getServersByIDs dbSingle [42, 43] = .ok [server1] ∧
    (∀ sv ∈ dbSingle, sv.id ≠ 43) := ⟨rfl, by decide⟩

/-- Claim C6, amended.  `GetServersByIDs` / `GetServersByNames` always
succeed (absent a database error): they return exactly the subset of rows
whose id (resp. name) is among the requested identifiers — possibly a
partial subset, possibly empty.  Requested identifiers matching zero rows
produce a logged warning, never a NotFound error. -/
theorem C6_amended (db : List Server) (ids : List Int) (names : List String) :
    (∃ l, getServersByIDs db ids = .ok l ∧
      ∀ sv, sv ∈ l ↔ sv ∈ db ∧ sv.id ∈ ids) ∧
    (∃ l, getServersByNames db names = .ok l ∧
      ∀ sv, sv ∈ l ↔ sv ∈ db ∧ sv.name ∈ names) := by
  constructor
  · by_cases h : ids.isEmpty
    · refine ⟨[], by simp [getServersByIDs, h], ?_⟩
      have he : ids = [] := by simpa using h
      simp [he]
    · refine ⟨db.filter (fun sv => ids.contains sv.id),
        by simp [getServersByIDs, h], ?_⟩
      intro sv
      simp [List.mem_filter]
  · by_cases h : names.isEmpty
    · refine ⟨[], by simp [getServersByNames, h], ?_⟩
      have he : names = [] := by simpa using h
      simp [he]
    · refine ⟨db.filter (fun sv => names.contains sv.name),
        by simp [getServersByNames, h], ?_⟩
      intro sv
      simp [List.mem_filter]

/-- Claim C7, counterexample.  The claim states a server whose stored error
for the protocol has operation tag "connect" is still probed.  With a
server whose `TCPErrorMsg` is non-empty and `TCPErrorOp = "connect"`,
`shouldSkipProtocol` still skips tcp and `performProtocolMeasurement`
writes no row. -/
theorem C7_counterexample :
    shouldSkipProtocol "tcp" serverTcpConnectErr = true ∧
    serverTcpConnectErr.tcpErrorOp = "connect" ∧
    performProtocolMeasurement envAllOK client1 serverTcpConnectErr "sess-7"
      0 "" none "tcp" [] = [] := ⟨rfl, rfl, rfl⟩

/-- Claim C7, amended.  A protocol is skipped (no probe, no Measurement
row) exactly when the Server's stored error message for that protocol is
non-empty — the operation tag is not consulted, so stored "connect" errors
are skipped like any other. -/
theorem C7_amended (p : String) (s : Server) :
    (shouldSkipProtocol p s = true ↔
      (p = "tcp" ∧ s.tcpErrorMsg ≠ "") ∨ (p = "udp" ∧ s.udpErrorMsg ≠ "")) ∧
    (∀ (env : Env) (c : Client) (sid : String) (rn : Nat) (pre : String)
      (ov : Option String) (store : List Measurement),
      (performProtocolMeasurement env c s sid rn pre ov p store = store ↔
        shouldSkipProtocol p s = true)) := by
  constructor
  · unfold shouldSkipProtocol
    cases hc1 : (p == "tcp" && s.tcpErrorMsg != "") <;>
      cases hc2 : (p == "udp" && s.udpErrorMsg != "") <;>
      simp_all
  · intro env c sid rn pre ov store
    rw [performProtocolMeasurement_eq]
    cases h : shouldSkipProtocol p s with
    | true => simp
    | false =>
        rw [if_neg (by simp)]
        constructor
        · intro heq
          have hl := congrArg List.length heq
          simp at hl
        · intro hb
          exact absurd hb (by simp)

/-- Claim C8, counterexample.  The claim states the persisted Measurement's
FullReport always contains the serialized report, including when the Prober
call itself errors.  When `TestConnectivity` returns an error,
`handleTestResult` records operation "fail" with the raw error text and
returns before marshalling: the stored row's FullReport is empty (the Go
zero value). -/
theorem C8_counterexample :
    ∃ m, performProtocolMeasurement envCallError client1 server1 "sess-8" 0
        "" none "tcp" [] = [m] ∧
      m.errorOp = "fail" ∧ m.errorMsg = "dial tcp: i/o timeout" ∧
      m.fullReport = none := ⟨_, rfl, rfl, rfl, rfl⟩

/-- Claim C8, amended.  `handleTestResult` stores the serialized report in
FullReport exactly when the Prober call returns a report: a structured
probe failure keeps the Prober-supplied tag/message/duration plus the
report, a clean success records "success" with the duration plus the
report, but a Prober call error records only operation "fail" and the raw
error text, leaving FullReport empty. -/
theorem C8_amended (env : Env) (m : Measurement) :
    (∀ e, handleTestResult env (.callError e) m =
      { m with errorMsg := e, errorOp := "fail" }) ∧
    (∀ te d,
      handleTestResult env (.report { error := some te, durationMs := d }) m =
        { m with errorMsg := te.msg, errorMsgVerbose := te.msgVerbose,
                 errorOp := te.op, duration := d,
                 fullReport :=
                   some (env.serialize { error := some te, durationMs := d }) }) ∧
    (∀ d,
      handleTestResult env (.report { error := none, durationMs := d }) m =
        { m with duration := d, errorOp := "success",
                 fullReport :=
                   some (env.serialize { error := none, durationMs := d }) }) :=
  ⟨fun _ => rfl, fun _ _ => rfl, fun _ => rfl⟩

/-- Claim C9, counterexample.  The claim states the started worker count
equals min(provider's advertised max concurrency, number of servers).  With
`soax.max_workers` unset (`viper.GetInt` yields 0), the soax constructor
defaults the advertised `GetMaxWorkers` to 1, but `processMeasurements`
re-reads the raw config value 0 and starts zero workers — not
min(1, 3) = 1. -/
theorem C9_counterexample :
    startedWorkers "soax" cfgZero 3 = 0 ∧
    soaxGetMaxWorkers (cfgZero "soax.max_workers") = 1 ∧
    min ((soaxGetMaxWorkers (cfgZero "soax.max_workers")).toNat) 3 = 1 := by
  decide

/-- Claim C9, amended.  The pool size is min(raw configured
`<provider>.max_workers` — or the constant 1 for providers other than soax
and proxyrack — , number of servers); in particular it never exceeds the
number of servers, so no idle worker is created.  It equals
min(advertised `GetMaxWorkers`, number of servers) for soax only when the
configured value is at least 1 (the constructor's zero-default is not seen
by `processMeasurements`). -/
theorem C9_amended (name : String) (cfg : String → Int) (n : Nat) :
    processMeasurementsWorkerCount name cfg n =
      min (rawConfiguredWorkers name cfg) (n : Int) ∧
    startedWorkers name cfg n = min (rawConfiguredWorkers name cfg).toNat n ∧
    startedWorkers name cfg n ≤ n ∧
    (1 ≤ cfg "soax.max_workers" →
      startedWorkers "soax" cfg n =
        min (soaxGetMaxWorkers (cfg "soax.max_workers")).toNat n) := by
  have hpw : processMeasurementsWorkerCount name cfg n =
      if rawConfiguredWorkers name cfg > (n : Int) then (n : Int)
      else rawConfiguredWorkers name cfg := rfl
  refine ⟨?_, ?_, ?_, ?_⟩
  · rw [hpw]
    split <;> omega
  · unfold startedWorkers
    rw [hpw]
    split <;> omega
  · unfold startedWorkers
    rw [hpw]
    split <;> omega
  · intro h1
    have h2 : startedWorkers "soax" cfg n =
        min (rawConfiguredWorkers "soax" cfg).toNat n := by
      unfold startedWorkers
      rw [show processMeasurementsWorkerCount "soax" cfg n =
          if rawConfiguredWorkers "soax" cfg > (n : Int) then (n : Int)
          else rawConfiguredWorkers "soax" cfg from rfl]
      split <;> omega
    rw [h2, show rawConfiguredWorkers "soax" cfg = cfg "soax.max_workers"
      from rfl]
    have hne : ¬(cfg "soax.max_workers" = 0) := by omega
    simp [soaxGetMaxWorkers, hne]

/-- Claim C9, witness for the amended theorem: with `soax.max_workers = 5`
and two servers the pool equals min(advertised, servers) = 2. -/
theorem C9_amended_witness :
    (1 ≤ cfgFive "soax.max_workers") ∧
    startedWorkers "soax" cfgFive 2 =
      min (soaxGetMaxWorkers (cfgFive "soax.max_workers")).toNat 2 :=
  ⟨by decide, (C9_amended "soax" cfgFive 2).2.2.2 (by decide)⟩

/-- Claim C10, confirmed.  In a pass with a fresh session id, a protocol
whose Server-level error message is non-empty at dispatch contributes no
Measurement row at all to the session: its retry-0 probe is skipped, so it
is absent from the read-back, excluded from the failed-protocol set, and
never retried. -/
theorem C10_skipped_protocol_silent (env : Env) (prefixes : List String)
    (client : Client) (server : Server) (sessionID : String)
    (order : List String) (store : List Measurement) (p : String)
    (hfresh : ∀ m ∈ store, m.sessionID ≠ sessionID)
    (hskip : shouldSkipProtocol p server = true) :
    ∀ m ∈ measureServer env prefixes client server sessionID order store,
      m.sessionID = sessionID → m.protocol ≠ p := by
  intro m hm hs hproto
  rw [measureServer_eq] at hm
  rcases List.mem_append.mp hm with hm' | hadd
  · rcases List.mem_append.mp hm' with hst | hin
    · exact absurd hs (hfresh m hst)
    · rcases mem_initialRows env client server sessionID m hin with
        ⟨rfl, hns⟩ | ⟨rfl, hns⟩
      · rw [rowFor_protocol] at hproto
        rw [← hproto] at hskip
        simp [hns] at hskip
      · rw [rowFor_protocol] at hproto
        rw [← hproto] at hskip
        simp [hns] at hskip
  · have h := mem_addedRows env prefixes client server sessionID _ order 0 m
      hadd
    have hns := readback_not_skipped env client server sessionID store
      m.protocol true hfresh h.2.2.1
    rw [hproto] at hns
    simp [hns] at hskip

/-- Claim C10, witness: with a stored tcp error, a full pass over both
protocols yields no tcp row in the session. -/
theorem C10_skipped_protocol_silent_witness :
    (∀ m ∈ ([] : List Measurement), m.sessionID ≠ "sess-10") ∧
    shouldSkipProtocol "tcp" serverTcpConnectErr = true ∧
    (∀ m ∈ measureServer envAllOK ["zz"] client1 serverTcpConnectErr
        "sess-10" ["tcp", "udp"] [],
      m.sessionID = "sess-10" → m.protocol ≠ "tcp") :=
  ⟨by simp, rfl,
    C10_skipped_protocol_silent envAllOK ["zz"] client1 serverTcpConnectErr
      "sess-10" ["tcp", "udp"] [] "tcp" (by simp) rfl⟩

end RemoteMeasurement
